import Mathlib

/-!
Verification of the natural-language specification of `git-remote-utils`
against a shallow embedding of its two source files, `src/socket.rs`
(endpoint resolution, bind/connect/display over Unix and TCP sockets) and
`src/task.rs` (the single-credit reader and writer pumps).

Machine integers are modelled as `Nat`/`UInt8`; fallible Rust code returns
`Except`; panics (`expect`, `unimplemented!`, `assert_eq!`) are modelled as
explicit `panic` outcomes so that "never aborts" claims are statable.
-/

namespace GitRemoteUtils

/-! ### Model of `std::io::Error` -/

/-- Model of `std::io::ErrorKind`, restricted to the kinds this program
inspects or constructs. -/
inductive ErrorKind where
  | invalidInput
  | interrupted
  | other
deriving DecidableEq, Repr

/-- Model of `std::io::Error`: a kind plus the message it displays. -/
structure IoError where
  kind : ErrorKind
  msg : String
deriving DecidableEq, Repr

/-! ### Model of `socket.rs` addresses

`SocketAddr` in the source wraps either a Unix-domain address (std or tokio
flavour, both of which expose `as_pathname : Option<&Path>`, `None` meaning
an abstract/unnamed socket) or an inet address. -/

/-- Model of a Unix-domain socket address: `path = none` models an abstract
(path-less) address, `some p` a pathname address. -/
structure UnixAddr where
  path : Option String
deriving DecidableEq, Repr

/-- Model of `std::net::SocketAddr`, kept abstract as the string the std
`Display` implementation would produce plus the port. -/
structure InetAddr where
  shown : String
deriving DecidableEq, Repr

/-- Model of the source's `enum SocketAddr { UnixStd, UnixTokio, Inet }`. -/
inductive SocketAddr where
  | unixStd (a : UnixAddr)
  | unixTokio (a : UnixAddr)
  | inet (a : InetAddr)
deriving DecidableEq, Repr

/-- Model of `std::os::unix::net::SocketAddr::from_pathname`: per std, it
fails with `InvalidInput` when the path contains an interior NUL byte or is
not shorter than `SUN_LEN` (108 bytes on Linux).  Otherwise it succeeds,
but the resulting address is a pathname address only for a non-empty path:
for the empty path std's `sockaddr_un` length bookkeeping stores a
zero-length `sun_path`, which `SocketAddr::address` classifies as unnamed,
so `as_pathname()` returns `None` — modelled here as `path := none`. -/
def fromPathname (p : String) : Except IoError UnixAddr :=
  if p.data.contains (Char.ofNat 0) then
    Except.error ⟨ErrorKind.invalidInput, "paths must not contain interior null bytes"⟩
  else if 108 ≤ p.utf8ByteSize then
    Except.error ⟨ErrorKind.invalidInput, "path must be shorter than SUN_LEN"⟩
  else if p = "" then
    Except.ok ⟨none⟩
  else
    Except.ok ⟨some p⟩

/-- Model of `<str as ToSocketAddrs>::to_socket_addrs`.  The system name
resolver (`net::lookup_host`) is passed in as the oracle `lookupHost`; the
function consults it only on the non-Unix branch.  The Unix branch follows
the source: `self.strip_prefix("unix:")` first, otherwise the whole string
when it contains a `/`. -/
def strToSocketAddrs (lookupHost : String → Except IoError (List InetAddr))
    (s : String) : Except IoError (List SocketAddr) :=
  let unixAddr : Option String :=
    if "unix:".data.isPrefixOf s.data then some (String.mk (s.data.drop 5))
    else if s.data.contains '/' then some s
    else none
  match unixAddr with
  | some addr =>
    match fromPathname addr with
    | Except.error e => Except.error e
    | Except.ok a => Except.ok [SocketAddr.unixStd a]
  | none =>
    match lookupHost s with
    | Except.error e => Except.error e
    | Except.ok addrs => Except.ok (addrs.map SocketAddr.inet)

/-! ### Model of `Display for SocketAddr`

The source writes `unix:{path}` for pathname addresses, delegates to std
`Display` for inet, and calls `unimplemented!("abstract socket not
supported")` — a panic — on abstract addresses. -/

/-- Outcome of a formatting call that may panic. -/
inductive DisplayOutcome where
  | ok (s : String)
  | panic (msg : String)
deriving DecidableEq, Repr

/-- Model of `impl Display for SocketAddr` in `socket.rs`. -/
def displaySocketAddr : SocketAddr → DisplayOutcome
  | SocketAddr.unixStd ⟨some p⟩ => DisplayOutcome.ok ("unix:" ++ p)
  | SocketAddr.unixStd ⟨none⟩ => DisplayOutcome.panic "abstract socket not supported"
  | SocketAddr.unixTokio ⟨some p⟩ => DisplayOutcome.ok ("unix:" ++ p)
  | SocketAddr.unixTokio ⟨none⟩ => DisplayOutcome.panic "abstract socket not supported"
  | SocketAddr.inet a => DisplayOutcome.ok a.shown

/-! ### Model of `SocketListener::bind` and `SocketStream::connect`

Both iterate the resolved candidates, attempt each, return the first
success, remember the last error, and fall back to a generic error when no
candidate was produced.  The OS-level attempt (`UnixListener::bind`,
`TcpListener::bind`, `UnixStream::connect`, `TcpStream::connect`) is an
oracle from the attempted target to a result.  On an abstract Unix address
the source panics via `.expect("abstract socket not supported")` before the
oracle is ever consulted. -/

/-- The target actually handed to the OS: a Unix path or an inet address. -/
inductive AttemptTarget where
  | unixPath (p : String)
  | inet (a : InetAddr)
deriving DecidableEq, Repr

/-- Outcome of `bind`/`connect`: a handle (abstracted to the target that
succeeded), an `io::Error`, or a panic. -/
inductive ConnOutcome where
  | ok (t : AttemptTarget)
  | err (e : IoError)
  | panic (msg : String)
deriving DecidableEq, Repr

/-- One candidate attempt inside `SocketListener::bind`: abstract addresses
panic via `expect`, otherwise the OS oracle decides. -/
def bindAttempt (attempt : AttemptTarget → Except IoError Unit) :
    SocketAddr → ConnOutcome
  | SocketAddr.unixStd ⟨none⟩ => ConnOutcome.panic "abstract socket not supported"
  | SocketAddr.unixStd ⟨some p⟩ =>
    match attempt (AttemptTarget.unixPath p) with
    | Except.ok _ => ConnOutcome.ok (AttemptTarget.unixPath p)
    | Except.error e => ConnOutcome.err e
  | SocketAddr.unixTokio ⟨none⟩ => ConnOutcome.panic "abstract socket not supported"
  | SocketAddr.unixTokio ⟨some p⟩ =>
    match attempt (AttemptTarget.unixPath p) with
    | Except.ok _ => ConnOutcome.ok (AttemptTarget.unixPath p)
    | Except.error e => ConnOutcome.err e
  | SocketAddr.inet a =>
    match attempt (AttemptTarget.inet a) with
    | Except.ok _ => ConnOutcome.ok (AttemptTarget.inet a)
    | Except.error e => ConnOutcome.err e

/-- The candidate loop shared (textually duplicated) by `bind` and
`connect` in the source: first success wins, last error is remembered. -/
def candidateLoop (attempt : AttemptTarget → Except IoError Unit)
    (lastErr : Option IoError) : List SocketAddr → ConnOutcome
  | [] =>
    match lastErr with
    | some e => ConnOutcome.err e
    | none => ConnOutcome.err ⟨ErrorKind.invalidInput, "could not resolve to any address"⟩
  | addr :: rest =>
    match bindAttempt attempt addr with
    | ConnOutcome.ok t => ConnOutcome.ok t
    | ConnOutcome.err e => candidateLoop attempt (some e) rest
    | ConnOutcome.panic m => ConnOutcome.panic m

/-- Model of `SocketListener::bind`: resolve, then iterate candidates. -/
def socketListenerBind (resolved : Except IoError (List SocketAddr))
    (attempt : AttemptTarget → Except IoError Unit) : ConnOutcome :=
  match resolved with
  | Except.error e => ConnOutcome.err e
  | Except.ok addrs => candidateLoop attempt none addrs

/-- Model of `SocketStream::connect`: identical structure to `bind`, with
its own OS oracle (`UnixStream::connect` / `TcpStream::connect`). -/
def socketStreamConnect (resolved : Except IoError (List SocketAddr))
    (attempt : AttemptTarget → Except IoError Unit) : ConnOutcome :=
  match resolved with
  | Except.error e => ConnOutcome.err e
  | Except.ok addrs => candidateLoop attempt none addrs

/-! ### Model of `task.rs`: the reader pump (`input`)

The reader owns a `BytesMut` of `BUFFER_SIZE` bytes.  Each loop iteration
reads from the source, and on a non-empty read splits off exactly the bytes
read, sends them (an `Arc` clone) on the data channel, blocks for one ack,
reclaims the buffer (`Arc::try_unwrap` + `unsplit`) and asserts the buffer
is whole again.

The environment is modelled by three oracles consumed in order:
`events` (what each `read` call returns), `sends` (whether each
`tx.send` succeeds — `false` models the data-channel receiver being gone),
and `acks` (what each `rx.recv` on the ack channel yields — `none` models
the ack channel closed).  A pump that would block forever because its
oracle list ran out exits with `stuck`. -/

/-- `BUFFER_SIZE` from `task.rs`. -/
def BUFFER_SIZE : Nat := 4 * 1024

/-- What one `input.read(&mut bytes)` call returns: `data p` is `Ok(n)`
with the `n = p.length` bytes read (`n = 0` is EOF), `interrupted` is
`Err` of kind `Interrupted`, `fail m` any other `Err` displaying `m`. -/
inductive ReadEvent where
  | data (payload : List UInt8)
  | interrupted
  | fail (msg : String)
deriving DecidableEq, Repr

/-- What one `rx.recv()` on the ack channel yields: `none` means the
channel closed, `some r` is a received `Result<(), String>`. -/
abbrev AckMsg := Option (Except String Unit)

deriving instance DecidableEq for Except

/-- How a pump run ends: `ok` is `Ok(())`, `err` is `Err` with the shown
message, `panic` a Rust panic, `stuck` means the pump blocked forever
(its oracle list was exhausted at an await point). -/
inductive PumpExit where
  | ok
  | err (msg : String)
  | panic (msg : String)
  | stuck
deriving DecidableEq, Repr

/-- Observable actions of the reader pump, in program order: `rd L` is a
`read` call issued with a buffer of length `L`, `send p` a buffer `p`
successfully handed to the data channel, `ack` a success ack consumed. -/
inductive Act where
  | rd (buflen : Nat)
  | send (payload : List UInt8)
  | ack
deriving DecidableEq, Repr

/-- Result of running the reader pump: its action trace, the buffers
delivered into the data channel in order, and how it ended. -/
structure InputRun where
  trace : List Act
  sent : List (List UInt8)
  exit : PumpExit
deriving DecidableEq, Repr

/-- Model of `input` from `task.rs`, one constructor case per branch of the
source `match`.  The buffer is a `List UInt8`; `read` writes the payload
over the front of the buffer, `split_to` is take/drop, `unsplit` appends
the reclaimed front part after the remainder, and the source's
`assert_eq!(bytes.len(), BUFFER_SIZE)` is checked explicitly. -/
def inputLoop : List UInt8 → List ReadEvent → List Bool → List AckMsg → InputRun
  | bytes, [], _, _ => ⟨[Act.rd bytes.length], [], PumpExit.stuck⟩
  | bytes, ReadEvent.interrupted :: evs, sends, acks =>
    let r := inputLoop bytes evs sends acks
    ⟨Act.rd bytes.length :: r.trace, r.sent, r.exit⟩
  | bytes, ReadEvent.fail m :: _, _, _ =>
    ⟨[Act.rd bytes.length], [], PumpExit.err ("failed to read stdin: " ++ m)⟩
  | bytes, ReadEvent.data p :: evs, sends, acks =>
    if p.length = 0 then ⟨[Act.rd bytes.length], [], PumpExit.ok⟩
    else
      let bytes1 := p ++ bytes.drop p.length
      let sendBytes := bytes1.take p.length
      let rest := bytes1.drop p.length
      match sends with
      | [] => ⟨[Act.rd bytes.length], [], PumpExit.stuck⟩
      | false :: _ => ⟨[Act.rd bytes.length], [], PumpExit.err "failed to send bytes"⟩
      | true :: sendsTl =>
        match acks with
        | [] => ⟨[Act.rd bytes.length, Act.send sendBytes], [sendBytes], PumpExit.stuck⟩
        | none :: _ =>
          ⟨[Act.rd bytes.length, Act.send sendBytes], [sendBytes],
            PumpExit.err "failed to receive buffer"⟩
        | some (Except.error e) :: _ =>
          ⟨[Act.rd bytes.length, Act.send sendBytes], [sendBytes], PumpExit.err e⟩
        | some (Except.ok _) :: acksTl =>
          let bytes2 := rest ++ sendBytes
          if bytes2.length = BUFFER_SIZE then
            let r := inputLoop bytes2 evs sendsTl acksTl
            ⟨Act.rd bytes.length :: Act.send sendBytes :: Act.ack :: r.trace,
              sendBytes :: r.sent, r.exit⟩
          else
            ⟨[Act.rd bytes.length, Act.send sendBytes, Act.ack], [sendBytes],
              PumpExit.panic "assertion failed: bytes.len() == BUFFER_SIZE"⟩

/-- The reader's initial buffer: `BytesMut::new()` resized to
`BUFFER_SIZE` zeroes. -/
def initBytes : List UInt8 := List.replicate BUFFER_SIZE 0

/-! ### Model of `task.rs`: the writer pump (`output`)

The writer receives buffers until the data channel closes, writes each
fully to the destination, and sends one ack per buffer.  Oracles:
`closed` says whether the channel closes after the modelled buffers,
`writes` gives each `write_all` outcome (the `String` is the error's
display, which the source forwards via `e.to_string()`), `ackSends` says
whether each `tx.send` of an ack succeeds.  The destination contents after
a failed `write_all` are unspecified in Rust; the model appends nothing in
that case (no claim depends on them). -/

/-- Result of running the writer pump: bytes written to the destination,
acks sent upstream in order, and how it ended. -/
structure OutputRun where
  written : List UInt8
  acks : List (Except String Unit)
  exit : PumpExit
deriving DecidableEq, Repr

/-- Model of `output` from `task.rs`. -/
def outputLoop : List (List UInt8) → Bool → List (Except String Unit) → List Bool → OutputRun
  | [], closed, _, _ =>
    if closed then ⟨[], [], PumpExit.ok⟩ else ⟨[], [], PumpExit.stuck⟩
  | b :: bs, closed, writes, ackSends =>
    match writes with
    | [] => ⟨[], [], PumpExit.stuck⟩
    | w :: writesTl =>
      let wbytes : List UInt8 :=
        match w with
        | Except.ok _ => b
        | Except.error _ => []
      match ackSends with
      | [] => ⟨wbytes, [], PumpExit.stuck⟩
      | false :: _ => ⟨wbytes, [], PumpExit.err "failed to send result"⟩
      | true :: ackSendsTl =>
        let r := outputLoop bs closed writesTl ackSendsTl
        ⟨wbytes ++ r.written, w :: r.acks, r.exit⟩

/-! ### Single-credit ordering checker for the reader trace

`noReadWhileWaiting w tr` scans an action trace keeping a flag that is set
by a send and cleared by an ack; it fails iff a read is issued while an
ack is still pending. -/

/-- Checks that in trace `tr` no read occurs between a send and the ack
that answers it; `w` is whether an ack is currently pending. -/
def noReadWhileWaiting : Bool → List Act → Bool
  | _, [] => true
  | waiting, Act.rd _ :: rest => if waiting then false else noReadWhileWaiting false rest
  | _, Act.send _ :: rest => noReadWhileWaiting true rest
  | _, Act.ack :: rest => noReadWhileWaiting false rest

/-! ### Interleaved relay machine (reader + writer as concurrent tasks)

This machine makes the `Arc` strong count and the task interleaving
explicit, to settle the buffer-reclaim assertion.  Each task is cut at
its await points and at the `Arc` operations into atomic steps; the data
and ack channels are capacity-1 slots.  `arcCount` is the strong count of
the `Arc<BytesMut>` currently in flight: the reader's `send_bytes` binding
holds one reference from `Arc::new` at the split, the clone passed to
`tx.send` is the second, and the writer's received binding `bytes` holds
that second reference until it is dropped at the end of the writer's loop
iteration — which in the source happens only after the ack was sent.
Writes always succeed in this machine (the claim under scrutiny concerns
the success-ack path), and the writer's clean termination on channel
closure is not modelled (irrelevant to reclaim). -/

/-- Reader task program counter.  `sending`, `awaitingAck` and
`reclaiming` carry the split-off payload the reader's `send_bytes`
binding refers to. -/
inductive RPC where
  | reading
  | sending (p : List UInt8)
  | awaitingAck (p : List UInt8)
  | reclaiming (p : List UInt8)
  | done
  | failed (msg : String)
  | panicked (msg : String)
deriving DecidableEq, Repr

/-- Writer task program counter.  `writing`, `acking` and `dropping`
carry the buffer the writer's `bytes` binding refers to; the reference is
released only at the `dropping` step, after the ack was sent. -/
inductive WPC where
  | receiving
  | writing (b : List UInt8)
  | acking (b : List UInt8)
  | dropping (b : List UInt8)
deriving DecidableEq, Repr

/-- Global state of the interleaved relay: remaining source events, the
reader's buffer remainder, both program counters, the two capacity-1
channel slots, the strong count of the in-flight `Arc`, and the bytes the
writer has written. -/
structure RelayState where
  events : List ReadEvent
  rdBuf : List UInt8
  rpc : RPC
  wpc : WPC
  dataCh : Option (List UInt8)
  ackCh : Option (Except String Unit)
  arcCount : Nat
  written : List UInt8
deriving DecidableEq, Repr

/-- One atomic step of the reader task; `none` when it is blocked at an
await point or terminal. -/
def readerStep (s : RelayState) : Option RelayState :=
  match s.rpc with
  | RPC.reading =>
    match s.events with
    | [] => none
    | ReadEvent.data p :: evs =>
      if p.length = 0 then some { s with events := evs, rpc := RPC.done }
      else
        some { s with events := evs,
                      rdBuf := (p ++ s.rdBuf.drop p.length).drop p.length,
                      rpc := RPC.sending ((p ++ s.rdBuf.drop p.length).take p.length),
                      arcCount := 1 }
    | ReadEvent.interrupted :: evs => some { s with events := evs }
    | ReadEvent.fail m :: evs =>
      some { s with events := evs, rpc := RPC.failed ("failed to read stdin: " ++ m) }
  | RPC.sending p =>
    match s.dataCh with
    | some _ => none
    | none =>
      some { s with dataCh := some p, arcCount := s.arcCount + 1, rpc := RPC.awaitingAck p }
  | RPC.awaitingAck p =>
    match s.ackCh with
    | none => none
    | some (Except.ok _) => some { s with ackCh := none, rpc := RPC.reclaiming p }
    | some (Except.error e) => some { s with ackCh := none, rpc := RPC.failed e }
  | RPC.reclaiming p =>
    if s.arcCount = 1 then
      if (s.rdBuf ++ p).length = BUFFER_SIZE then
        some { s with arcCount := 0, rdBuf := s.rdBuf ++ p, rpc := RPC.reading }
      else
        some { s with rpc := RPC.panicked "assertion failed: bytes.len() == BUFFER_SIZE" }
    else
      some { s with rpc := RPC.panicked "must be un-shared" }
  | RPC.done => none
  | RPC.failed _ => none
  | RPC.panicked _ => none

/-- One atomic step of the writer task; `none` when it is blocked. -/
def writerStep (s : RelayState) : Option RelayState :=
  match s.wpc with
  | WPC.receiving =>
    match s.dataCh with
    | none => none
    | some b => some { s with dataCh := none, wpc := WPC.writing b }
  | WPC.writing b =>
    some { s with written := s.written ++ b, wpc := WPC.acking b }
  | WPC.acking b =>
    match s.ackCh with
    | some _ => none
    | none => some { s with ackCh := some (Except.ok ()), wpc := WPC.dropping b }
  | WPC.dropping _ =>
    some { s with arcCount := s.arcCount - 1, wpc := WPC.receiving }

/-- Which task a scheduler picks. -/
inductive Tid where
  | reader
  | writer
deriving DecidableEq, Repr

/-- One scheduled step: the chosen task steps if enabled, otherwise the
state is unchanged. -/
def relayStep (s : RelayState) : Tid → RelayState
  | Tid.reader => (readerStep s).getD s
  | Tid.writer => (writerStep s).getD s

/-- Run the relay machine under a schedule. -/
def relayRun : RelayState → List Tid → RelayState
  | s, [] => s
  | s, t :: ts => relayRun (relayStep s t) ts

/-- Initial relay state for a given source. -/
def relayInit (events : List ReadEvent) : RelayState :=
  ⟨events, initBytes, RPC.reading, WPC.receiving, none, none, 0, []⟩

/-! ### Theorems -/

set_option maxRecDepth 4000

/-- C6: the reader pump's read contract.  A zero-length read ends the pump
cleanly with nothing sent; an `Interrupted` read error retries the same
read, emitting nothing on either channel for that iteration (the run is
that of the remaining events, with only the extra read call in the trace);
any other read error ends the pump with an error containing the read
error's message, with nothing sent into the data channel for that
iteration. -/
theorem input_read_contract (bytes : List UInt8) (evs : List ReadEvent)
    (sends : List Bool) (acks : List AckMsg) (m : String) :
    inputLoop bytes (ReadEvent.data [] :: evs) sends acks
      = ⟨[Act.rd bytes.length], [], PumpExit.ok⟩ ∧
    inputLoop bytes (ReadEvent.interrupted :: evs) sends acks
      = ⟨Act.rd bytes.length :: (inputLoop bytes evs sends acks).trace,
          (inputLoop bytes evs sends acks).sent,
          (inputLoop bytes evs sends acks).exit⟩ ∧
    inputLoop bytes (ReadEvent.fail m :: evs) sends acks
      = ⟨[Act.rd bytes.length], [], PumpExit.err ("failed to read stdin: " ++ m)⟩ := by
  refine ⟨?_, ?_, ?_⟩ <;> simp [inputLoop]

/-- C2: single-credit window of the reader pump.  In every run of the
reader — over any source events, send outcomes and ack stream — the action
trace never issues a read while an ack for a previously sent buffer is
still pending: after each send, the next read occurs only after the ack
was received. -/
theorem input_single_credit_no_read_before_ack (bytes : List UInt8)
    (events : List ReadEvent) (sends : List Bool) (acks : List AckMsg) :
    noReadWhileWaiting false (inputLoop bytes events sends acks).trace = true := by
  induction events generalizing bytes sends acks with
  | nil => simp [inputLoop, noReadWhileWaiting]
  | cons e evs ih =>
    cases e with
    | interrupted => simp [inputLoop, noReadWhileWaiting, ih]
    | fail m => simp [inputLoop, noReadWhileWaiting]
    | data p =>
      by_cases hp : p.length = 0
      · simp [inputLoop, hp, noReadWhileWaiting]
      · rcases sends with _ | ⟨b, sends⟩
        · simp [inputLoop, hp, noReadWhileWaiting]
        · cases b
          · simp [inputLoop, hp, noReadWhileWaiting]
          · rcases acks with _ | ⟨a, acks⟩
            · simp [inputLoop, hp, noReadWhileWaiting]
            · rcases a with _ | ⟨e | u⟩
              · simp [inputLoop, hp, noReadWhileWaiting]
              · simp [inputLoop, hp, noReadWhileWaiting]
              · simp only [inputLoop, hp, if_false]
                split
                · simp [noReadWhileWaiting, ih]
                · simp [noReadWhileWaiting]

/-- C5: the writer pump's contract.  It returns success exactly when the
data channel closes: closure after draining ends it cleanly, and while the
channel stays open it never exits cleanly.  A failed write produces a
failure ack carrying the write error's message and the loop continues with
the remaining buffers; a failed ack send ends the pump with an error. -/
theorem output_pump_contract :
    (∀ writes ackSends, outputLoop [] true writes ackSends = ⟨[], [], PumpExit.ok⟩) ∧
    (∀ received writes ackSends,
      (outputLoop received false writes ackSends).exit ≠ PumpExit.ok) ∧
    (∀ (b : List UInt8) bs closed e writesTl ackSendsTl,
      outputLoop (b :: bs) closed (Except.error e :: writesTl) (true :: ackSendsTl)
        = ⟨(outputLoop bs closed writesTl ackSendsTl).written,
            Except.error e :: (outputLoop bs closed writesTl ackSendsTl).acks,
            (outputLoop bs closed writesTl ackSendsTl).exit⟩) ∧
    (∀ (b : List UInt8) bs closed w writesTl ackSends,
      (outputLoop (b :: bs) closed (w :: writesTl) (false :: ackSends)).exit
        = PumpExit.err "failed to send result") := by
  refine ⟨fun writes ackSends => by simp [outputLoop], ?_, ?_, ?_⟩
  · intro received
    induction received with
    | nil => intro writes ackSends; simp [outputLoop]
    | cons b bs ih =>
      intro writes ackSends
      rcases writes with _ | ⟨w, writes⟩
      · simp [outputLoop]
      · rcases ackSends with _ | ⟨a, ackSends⟩
        · simp [outputLoop]
        · cases a
          · simp [outputLoop]
          · simpa [outputLoop] using ih writes ackSends
  · intro b bs closed e writesTl ackSendsTl
    simp [outputLoop]
  · intro b bs closed w writesTl ackSends
    simp [outputLoop]

/-- C5 witness: the contract evaluated at concrete inputs — an empty drain
followed by closure is a clean exit, and a failed write on the single
buffer `[9]` yields the failure ack `boom` while the run then ends
cleanly. -/
theorem output_pump_contract_witness :
    outputLoop [] true [] [] = ⟨[], [], PumpExit.ok⟩ ∧
    outputLoop [[9]] true [Except.error "boom"] [true]
      = ⟨[], [Except.error "boom"], PumpExit.ok⟩ := by
  refine ⟨output_pump_contract.1 [] [], ?_⟩
  have h := output_pump_contract.2.2.1 ([9] : List UInt8) [] true "boom" [] []
  rw [h, output_pump_contract.1 [] []]

/-- Helper: one full successful iteration of the reader pump — non-empty
read, successful send, success ack — advances the loop with the buffer
reclaimed and whole again. -/
lemma inputLoop_ok_step (bytes p : List UInt8) (evs : List ReadEvent)
    (sends : List Bool) (acks : List AckMsg) (hp0 : ¬ p.length = 0)
    (hb : bytes.length = BUFFER_SIZE) (hple : p.length ≤ BUFFER_SIZE) :
    inputLoop bytes (ReadEvent.data p :: evs) (true :: sends)
        (some (Except.ok ()) :: acks)
      = ⟨Act.rd BUFFER_SIZE :: Act.send p :: Act.ack ::
            (inputLoop (bytes.drop p.length ++ p) evs sends acks).trace,
          p :: (inputLoop (bytes.drop p.length ++ p) evs sends acks).sent,
          (inputLoop (bytes.drop p.length ++ p) evs sends acks).exit⟩ := by
  simp [inputLoop, hp0, hb, Nat.sub_add_cancel hple]

/-- C4: after sending a buffer the reader blocks for exactly one ack, and
the three ack outcomes behave as claimed: a failure ack ends the pump with
an error carrying exactly the failure reason; a closed ack channel ends it
with the generic `failed to receive buffer` error; a success ack lets the
loop continue, consuming exactly that one ack and reclaiming the buffer. -/
theorem input_blocks_for_one_ack (bytes p : List UInt8) (evs : List ReadEvent)
    (sends : List Bool) (hp : p ≠ []) (hb : bytes.length = BUFFER_SIZE)
    (hple : p.length ≤ BUFFER_SIZE) :
    (∀ (e : String) rest, (inputLoop bytes (ReadEvent.data p :: evs) (true :: sends)
        (some (Except.error e) :: rest)).exit = PumpExit.err e) ∧
    (∀ rest, (inputLoop bytes (ReadEvent.data p :: evs) (true :: sends)
        (none :: rest)).exit = PumpExit.err "failed to receive buffer") ∧
    (∀ rest, inputLoop bytes (ReadEvent.data p :: evs) (true :: sends)
        (some (Except.ok ()) :: rest)
      = ⟨Act.rd BUFFER_SIZE :: Act.send p :: Act.ack ::
            (inputLoop (bytes.drop p.length ++ p) evs sends rest).trace,
          p :: (inputLoop (bytes.drop p.length ++ p) evs sends rest).sent,
          (inputLoop (bytes.drop p.length ++ p) evs sends rest).exit⟩) := by
  have hp0 : ¬ p.length = 0 := by simpa using hp
  refine ⟨fun e rest => by simp [inputLoop, hp0], fun rest => by simp [inputLoop, hp0], ?_⟩
  intro rest
  simp [inputLoop, hp0, hb, Nat.sub_add_cancel hple]

/-- C4 witness: a failure ack with reason `disk full` for the one-byte
buffer `[5]` terminates the reader with exactly that error. -/
theorem input_blocks_for_one_ack_witness :
    ([5] : List UInt8) ≠ [] ∧ initBytes.length = BUFFER_SIZE ∧
    (inputLoop initBytes [ReadEvent.data [5]] [true]
        [some (Except.error "disk full")]).exit = PumpExit.err "disk full" := by
  refine ⟨by decide, by simp [initBytes], ?_⟩
  exact (input_blocks_for_one_ack initBytes [5] [] [] (by decide)
    (by simp [initBytes]) (by decide)).1 "disk full" []

/-- Helper for C10: the reader-pump invariants hold from any buffer of
length `BUFFER_SIZE`, for sources whose reads respect the buffer bound. -/
lemma inputLoop_invariants_aux (events : List ReadEvent) :
    ∀ (bytes : List UInt8) (sends : List Bool) (acks : List AckMsg),
    bytes.length = BUFFER_SIZE →
    (∀ p, ReadEvent.data p ∈ events → p.length ≤ BUFFER_SIZE) →
    (∀ b ∈ (inputLoop bytes events sends acks).sent, b ≠ [] ∧ b.length ≤ BUFFER_SIZE) ∧
    (∀ L, Act.rd L ∈ (inputLoop bytes events sends acks).trace → L = BUFFER_SIZE) := by
  induction events with
  | nil =>
    intro bytes sends acks hb _
    simp [inputLoop, hb]
  | cons e evs ih =>
    intro bytes sends acks hb hwf
    have hwf' : ∀ p, ReadEvent.data p ∈ evs → p.length ≤ BUFFER_SIZE :=
      fun p hp => hwf p (List.mem_cons_of_mem _ hp)
    cases e with
    | interrupted =>
      have h := ih bytes sends acks hb hwf'
      refine ⟨by simpa [inputLoop] using h.1, ?_⟩
      intro L hL
      simp only [inputLoop, List.mem_cons] at hL
      rcases hL with h1 | h1
      · injection h1 with h2; omega
      · exact h.2 L h1
    | fail m =>
      simp [inputLoop, hb]
    | data p =>
      by_cases hp0 : p.length = 0
      · simp [inputLoop, hp0, hb]
      · have hpne : p ≠ [] := by simpa using hp0
        have hple : p.length ≤ BUFFER_SIZE := hwf p (List.mem_cons_self _ _)
        rcases sends with _ | ⟨b, sends⟩
        · simp [inputLoop, hp0, hb, hpne, hple]
        · cases b
          · simp [inputLoop, hp0, hb, hpne, hple]
          · rcases acks with _ | ⟨a, acks⟩
            · simp [inputLoop, hp0, hb, hpne, hple]
            · rcases a with _ | ⟨e | u⟩
              · simp [inputLoop, hp0, hb, hpne, hple]
              · simp [inputLoop, hp0, hb, hpne, hple]
              · cases u
                have h := ih (bytes.drop p.length ++ p) sends acks
                  (by simp [hb]; omega) hwf'
                rw [inputLoop_ok_step bytes p evs sends acks hp0 hb hple]
                dsimp only
                refine ⟨?_, ?_⟩
                · intro c hc
                  simp only [List.mem_cons] at hc
                  rcases hc with h1 | h1
                  · subst h1; exact ⟨hpne, hple⟩
                  · exact h.1 c h1
                · intro L hL
                  simp only [List.mem_cons] at hL
                  rcases hL with h1 | h1 | h1 | h1
                  · exact Act.rd.inj h1
                  · cases h1
                  · cases h1
                  · exact h.2 L h1

/-- C10: every buffer the reader sends on the data channel is non-empty
and at most `BUFFER_SIZE` (4096) bytes long, and every read call is issued
with a working buffer of length exactly `BUFFER_SIZE`; consequently the
writer, which receives exactly the sent buffers, never receives an empty
buffer. -/
theorem input_buffer_size_invariants (events : List ReadEvent)
    (sends : List Bool) (acks : List AckMsg)
    (hwf : ∀ p, ReadEvent.data p ∈ events → p.length ≤ BUFFER_SIZE) :
    (∀ b ∈ (inputLoop initBytes events sends acks).sent,
      b ≠ [] ∧ b.length ≤ BUFFER_SIZE) ∧
    (∀ L, Act.rd L ∈ (inputLoop initBytes events sends acks).trace →
      L = BUFFER_SIZE) :=
  inputLoop_invariants_aux events initBytes sends acks (by simp [initBytes]) hwf

/-- C10 witness: the invariants instantiated on a two-chunk source. -/
theorem input_buffer_size_invariants_witness :
    (∀ b ∈ (inputLoop initBytes
        [ReadEvent.data [1, 2], ReadEvent.data [3], ReadEvent.data []]
        [true, true] [some (Except.ok ()), some (Except.ok ())]).sent,
      b ≠ [] ∧ b.length ≤ BUFFER_SIZE) ∧
    (∀ L, Act.rd L ∈ (inputLoop initBytes
        [ReadEvent.data [1, 2], ReadEvent.data [3], ReadEvent.data []]
        [true, true] [some (Except.ok ()), some (Except.ok ())]).trace →
      L = BUFFER_SIZE) := by
  refine input_buffer_size_invariants _ _ _ ?_
  intro p hp
  simp only [List.mem_cons, List.not_mem_nil, or_false] at hp
  rcases hp with h | h | h <;> injection h with h2 <;> subst h2 <;> decide

/-- The source events of a finite byte stream delivered in `chunks` by the
OS read calls, followed by the EOF read. -/
def goodEvents (chunks : List (List UInt8)) : List ReadEvent :=
  chunks.map ReadEvent.data ++ [ReadEvent.data []]

/-- Helper for C1: under an all-success ack stream, the reader forwards
exactly the chunks it read, in order, and terminates cleanly at EOF. -/
lemma inputLoop_good (chunks : List (List UInt8)) :
    ∀ bytes : List UInt8, bytes.length = BUFFER_SIZE →
    (∀ c ∈ chunks, c ≠ [] ∧ c.length ≤ BUFFER_SIZE) →
    inputLoop bytes (goodEvents chunks) (List.replicate chunks.length true)
      (List.replicate chunks.length (some (Except.ok ())))
    = ⟨(chunks.map fun c => [Act.rd BUFFER_SIZE, Act.send c, Act.ack]).flatten
        ++ [Act.rd BUFFER_SIZE], chunks, PumpExit.ok⟩ := by
  induction chunks with
  | nil => intro bytes hb _; simp [goodEvents, inputLoop, hb]
  | cons c cs ih =>
    intro bytes hb hwf
    obtain ⟨hc0, hcle⟩ := hwf c (List.mem_cons_self _ _)
    have hc0' : ¬ c.length = 0 := by simpa using hc0
    have hrec := ih (bytes.drop c.length ++ c) (by simp [hb]; omega)
      (fun d hd => hwf d (List.mem_cons_of_mem _ hd))
    simp only [goodEvents, List.map_cons, List.cons_append, List.length_cons,
      List.replicate_succ] at hrec ⊢
    rw [inputLoop_ok_step bytes c (cs.map ReadEvent.data ++ [ReadEvent.data []])
      (List.replicate cs.length true) (List.replicate cs.length (some (Except.ok ())))
      hc0' hb hcle, hrec]
    simp

/-- Helper for C1: a writer whose writes all succeed drains the buffers in
order, writes their concatenation, acks each with success, and terminates
cleanly when the channel closes. -/
lemma outputLoop_all_ok (bs : List (List UInt8)) :
    outputLoop bs true (List.replicate bs.length (Except.ok ()))
      (List.replicate bs.length true)
    = ⟨bs.flatten, List.replicate bs.length (Except.ok ()), PumpExit.ok⟩ := by
  induction bs with
  | nil => simp [outputLoop]
  | cons b bs ih => simp [outputLoop, List.replicate_succ, ih]

/-- The reader run of the round-trip scenario: source delivering `chunks`
then EOF, every send accepted, every ack a success. -/
def goodInputRun (chunks : List (List UInt8)) : InputRun :=
  inputLoop initBytes (goodEvents chunks) (List.replicate chunks.length true)
    (List.replicate chunks.length (some (Except.ok ())))

/-- The writer run of the round-trip scenario: it receives exactly the
buffers the reader sent, the channel then closes, and every write and
ack send succeeds. -/
def goodOutputRun (chunks : List (List UInt8)) : OutputRun :=
  outputLoop (goodInputRun chunks).sent true
    (List.replicate (goodInputRun chunks).sent.length (Except.ok ()))
    (List.replicate (goodInputRun chunks).sent.length true)

/-- C1: round-trip.  For every finite byte stream — delivered by the OS as
any chunk sequence the read contract allows (each read returns between 1
and `BUFFER_SIZE` bytes, then EOF) — wiring the reader's sent buffers into
the writer with every write succeeding makes the writer write exactly the
bytes the reader read, identical and in order, both pumps terminate
cleanly, and every ack the writer produced was a success ack (so the acks
fed to the reader coincide with the acks the writer sent).  This holds for
every payload size, 0 bytes (no chunks) included. -/
theorem input_output_round_trip (chunks : List (List UInt8))
    (hwf : ∀ c ∈ chunks, c ≠ [] ∧ c.length ≤ BUFFER_SIZE) :
    (goodOutputRun chunks).written = chunks.flatten ∧
    (goodInputRun chunks).sent = chunks ∧
    (goodInputRun chunks).exit = PumpExit.ok ∧
    (goodOutputRun chunks).exit = PumpExit.ok ∧
    (goodOutputRun chunks).acks
      = List.replicate chunks.length (Except.ok ()) := by
  have hin : goodInputRun chunks
      = ⟨(chunks.map fun c => [Act.rd BUFFER_SIZE, Act.send c, Act.ack]).flatten
          ++ [Act.rd BUFFER_SIZE], chunks, PumpExit.ok⟩ :=
    inputLoop_good chunks initBytes (by simp [initBytes]) hwf
  have hsent : (goodInputRun chunks).sent = chunks := by rw [hin]
  have hout : goodOutputRun chunks
      = ⟨chunks.flatten, List.replicate chunks.length (Except.ok ()), PumpExit.ok⟩ := by
    rw [goodOutputRun, hsent]
    exact outputLoop_all_ok chunks
  refine ⟨by rw [hout], hsent, by rw [hin], by rw [hout], by rw [hout]⟩

/-- C1 witness: a five-byte payload delivered as chunks `[1, 2] [3] [4, 5]`
round-trips: the writer writes `[1, 2, 3, 4, 5]` and both pumps end
cleanly. -/
theorem input_output_round_trip_witness :
    (goodOutputRun [[1, 2], [3], [4, 5]]).written = [1, 2, 3, 4, 5] ∧
    (goodInputRun [[1, 2], [3], [4, 5]]).exit = PumpExit.ok ∧
    (goodOutputRun [[1, 2], [3], [4, 5]]).exit = PumpExit.ok := by
  have h := input_output_round_trip [[1, 2], [3], [4, 5]] (by decide)
  exact ⟨h.1.trans (by decide), h.2.2.1, h.2.2.2.1⟩

/-- A mock system resolver that yields no addresses (the resolver oracle is
irrelevant on the Unix branch, which never consults it). -/
def lookupEmpty : String → Except IoError (List InetAddr) := fun _ => Except.ok []

/-- C7 counterexample: two spec strings starting with `unix:` on which the
claim's "yields exactly one endpoint — a Unix path endpoint whose path is
the remainder" fails.  For a 120-byte path part `from_pathname` fails and
the error is propagated, so no endpoint at all is yielded; for the bare
spec `unix:` (empty remainder) the resolver yields one endpoint, but an
unnamed (path-less) one, not a path endpoint with path the remainder. -/
theorem resolver_unix_counterexample :
    "unix:".data.isPrefixOf ("unix:" ++ String.mk (List.replicate 120 'a')).data = true ∧
    strToSocketAddrs lookupEmpty ("unix:" ++ String.mk (List.replicate 120 'a'))
      = Except.error ⟨ErrorKind.invalidInput, "path must be shorter than SUN_LEN"⟩ ∧
    strToSocketAddrs lookupEmpty "unix:" = Except.ok [SocketAddr.unixStd ⟨none⟩] ∧
    strToSocketAddrs lookupEmpty "unix:" ≠ Except.ok [SocketAddr.unixStd ⟨some ""⟩] :=
  ⟨by decide, by decide, by decide, by decide⟩

/-- C7 (amended): for every spec string that starts with `unix:` or
contains `/`, no name lookup is performed (the result is independent of the
lookup oracle).  Provided the designated path — the remainder after
`unix:`, respectively the whole string — contains no interior NUL byte and
is shorter than 108 bytes, the resolver yields exactly one Unix endpoint:
a path endpoint with that path when the path is non-empty, and an unnamed
(path-less) endpoint when the remainder is empty (the bare spec `unix:`);
otherwise the path-conversion error is returned, still with no lookup.
Every other string is resolved through the system name resolver. -/
theorem resolver_unix_rule (s : String)
    (f g : String → Except IoError (List InetAddr)) :
    (("unix:".data.isPrefixOf s.data = true ∨ s.data.contains '/' = true) →
      strToSocketAddrs f s = strToSocketAddrs g s) ∧
    ("unix:".data.isPrefixOf s.data = true →
      (String.mk (s.data.drop 5)).data.contains (Char.ofNat 0) = false →
      (String.mk (s.data.drop 5)).utf8ByteSize < 108 →
      s.data.drop 5 ≠ [] →
      strToSocketAddrs f s
        = Except.ok [SocketAddr.unixStd ⟨some (String.mk (s.data.drop 5))⟩]) ∧
    ("unix:".data.isPrefixOf s.data = true → s.data.drop 5 = [] →
      strToSocketAddrs f s = Except.ok [SocketAddr.unixStd ⟨none⟩]) ∧
    ("unix:".data.isPrefixOf s.data = false → s.data.contains '/' = true →
      s.data.contains (Char.ofNat 0) = false → s.utf8ByteSize < 108 →
      strToSocketAddrs f s = Except.ok [SocketAddr.unixStd ⟨some s⟩]) ∧
    ("unix:".data.isPrefixOf s.data = false → s.data.contains '/' = false →
      strToSocketAddrs f s = Except.map (List.map SocketAddr.inet) (f s)) := by
  refine ⟨?_, ?_, ?_, ?_, ?_⟩
  · intro h
    by_cases h1 : "unix:".data.isPrefixOf s.data = true
    · simp [strToSocketAddrs, h1]
    · have h2 : '/' ∈ s.data := by
        rcases h with h | h
        · exact absurd h h1
        · simpa using h
      simp [strToSocketAddrs, h1, h2]
  · intro h1 h2 h3 hne
    have h2' : Char.ofNat 0 ∉ s.data.drop 5 := by simpa using h2
    have h3' : ¬ 108 ≤ String.utf8Len (s.data.drop 5) := by
      rw [← String.utf8ByteSize_mk]
      omega
    have hne' : ¬ String.mk (s.data.drop 5) = "" :=
      fun hc => hne (congrArg String.data hc)
    simp [strToSocketAddrs, h1, fromPathname, h2', h3', hne']
  · intro h1 hemp
    have hsz : ¬ 108 ≤ "".utf8ByteSize := by decide
    simp [strToSocketAddrs, h1, fromPathname, hemp, hsz]
  · intro h1 h2 h3 h4
    have h2' : '/' ∈ s.data := by simpa using h2
    have h3' : Char.ofNat 0 ∉ s.data := by simpa using h3
    have h4' : ¬ 108 ≤ s.utf8ByteSize := by omega
    have hne' : ¬ s = "" := by
      intro hc
      rw [hc] at h2'
      simp at h2'
    simp [strToSocketAddrs, h1, h2', fromPathname, h3', h4', hne']
  · intro h1 h2
    have h2' : '/' ∉ s.data := by simpa using h2
    cases hfs : f s <;> simp [strToSocketAddrs, h1, h2', hfs, Except.map]

/-- C7 witness: `unix:/tmp/s.sock` resolves, with no lookup, to the single
Unix endpoint with path `/tmp/s.sock`. -/
theorem resolver_unix_rule_witness :
    "unix:".data.isPrefixOf "unix:/tmp/s.sock".data = true ∧
    strToSocketAddrs lookupEmpty "unix:/tmp/s.sock"
      = Except.ok [SocketAddr.unixStd ⟨some "/tmp/s.sock"⟩] := by
  have h := (resolver_unix_rule "unix:/tmp/s.sock" lookupEmpty lookupEmpty).2.1
    (by decide) (by decide) (by decide) (by decide)
  exact ⟨by decide, h.trans (by decide)⟩

/-- Helper for C8: erroring candidates are skipped, and a succeeding
candidate ends the loop immediately with its handle, whatever came after
it and whatever error was previously remembered. -/
lemma candidateLoop_first_success (attempt : AttemptTarget → Except IoError Unit)
    (addr : SocketAddr) (cs2 : List SocketAddr) (t : AttemptTarget)
    (h2 : bindAttempt attempt addr = ConnOutcome.ok t) :
    ∀ cs1 : List SocketAddr,
    (∀ a ∈ cs1, ∃ e, bindAttempt attempt a = ConnOutcome.err e) →
    ∀ le, candidateLoop attempt le (cs1 ++ addr :: cs2) = ConnOutcome.ok t := by
  intro cs1
  induction cs1 with
  | nil => intro _ le; simp [candidateLoop, h2]
  | cons a cs ih =>
    intro h1 le
    obtain ⟨e, he⟩ := h1 a (List.mem_cons_self _ _)
    simp only [List.cons_append, candidateLoop, he]
    exact ih (fun b hb => h1 b (List.mem_cons_of_mem _ hb)) (some e)

/-- Helper for C8: when every candidate fails, the loop returns the error
of the last one. -/
lemma candidateLoop_all_fail (attempt : AttemptTarget → Except IoError Unit)
    (addr : SocketAddr) (e : IoError)
    (h2 : bindAttempt attempt addr = ConnOutcome.err e) :
    ∀ cs : List SocketAddr,
    (∀ a ∈ cs, ∃ e2, bindAttempt attempt a = ConnOutcome.err e2) →
    ∀ le, candidateLoop attempt le (cs ++ [addr]) = ConnOutcome.err e := by
  intro cs
  induction cs with
  | nil => intro _ le; simp [candidateLoop, h2]
  | cons a cs ih =>
    intro h1 le
    obtain ⟨e2, he⟩ := h1 a (List.mem_cons_self _ _)
    simp only [List.cons_append, candidateLoop, he]
    exact ih (fun b hb => h1 b (List.mem_cons_of_mem _ hb)) (some e2)

/-- C8: `SocketListener::bind` and `SocketStream::connect` attempt the
resolved candidates in order and return the first success immediately
(whatever follows it is never attempted); when every candidate fails they
return the error of the last candidate; and when resolution produced zero
candidates they return the generic `could not resolve to any address`
error. -/
theorem bind_connect_candidate_iteration :
    (∀ attempt, socketListenerBind (Except.ok []) attempt
      = ConnOutcome.err ⟨ErrorKind.invalidInput, "could not resolve to any address"⟩) ∧
    (∀ attempt, socketStreamConnect (Except.ok []) attempt
      = ConnOutcome.err ⟨ErrorKind.invalidInput, "could not resolve to any address"⟩) ∧
    (∀ attempt (cs1 : List SocketAddr) addr (cs2 : List SocketAddr) t,
      (∀ a ∈ cs1, ∃ e, bindAttempt attempt a = ConnOutcome.err e) →
      bindAttempt attempt addr = ConnOutcome.ok t →
      socketListenerBind (Except.ok (cs1 ++ addr :: cs2)) attempt = ConnOutcome.ok t ∧
      socketStreamConnect (Except.ok (cs1 ++ addr :: cs2)) attempt = ConnOutcome.ok t) ∧
    (∀ attempt (cs : List SocketAddr) addr e,
      (∀ a ∈ cs, ∃ e2, bindAttempt attempt a = ConnOutcome.err e2) →
      bindAttempt attempt addr = ConnOutcome.err e →
      socketListenerBind (Except.ok (cs ++ [addr])) attempt = ConnOutcome.err e ∧
      socketStreamConnect (Except.ok (cs ++ [addr])) attempt = ConnOutcome.err e) := by
  refine ⟨fun attempt => rfl, fun attempt => rfl, ?_, ?_⟩
  · intro attempt cs1 addr cs2 t h1 h2
    have h := candidateLoop_first_success attempt addr cs2 t h2 cs1 h1 none
    exact ⟨h, h⟩
  · intro attempt cs addr e h1 h2
    have h := candidateLoop_all_fail attempt addr e h2 cs h1 none
    exact ⟨h, h⟩

/-- A mock OS oracle for the C8 witness: only the path `good` succeeds. -/
def mockAttempt : AttemptTarget → Except IoError Unit
  | AttemptTarget.unixPath "good" => Except.ok ()
  | _ => Except.error ⟨ErrorKind.other, "connection refused"⟩

/-- C8 witness: the spec's `[bad, bad, good]` scenario — bind and connect
succeed using the third candidate. -/
theorem bind_connect_candidate_iteration_witness :
    socketListenerBind (Except.ok [SocketAddr.unixStd ⟨some "bad1"⟩,
        SocketAddr.unixStd ⟨some "bad2"⟩, SocketAddr.unixStd ⟨some "good"⟩])
      mockAttempt = ConnOutcome.ok (AttemptTarget.unixPath "good") ∧
    socketStreamConnect (Except.ok [SocketAddr.unixStd ⟨some "bad1"⟩,
        SocketAddr.unixStd ⟨some "bad2"⟩, SocketAddr.unixStd ⟨some "good"⟩])
      mockAttempt = ConnOutcome.ok (AttemptTarget.unixPath "good") := by
  have h := bind_connect_candidate_iteration.2.2.1 mockAttempt
    [SocketAddr.unixStd ⟨some "bad1"⟩, SocketAddr.unixStd ⟨some "bad2"⟩]
    (SocketAddr.unixStd ⟨some "good"⟩) [] (AttemptTarget.unixPath "good")
    ?_ (by decide)
  · exact h
  · intro a ha
    simp only [List.mem_cons, List.not_mem_nil, or_false] at ha
    rcases ha with h1 | h1 <;> subst h1 <;>
      exact ⟨⟨ErrorKind.other, "connection refused"⟩, by decide⟩

/-- An OS oracle that refuses everything, for the C9 counterexample. -/
def attemptRefuse : AttemptTarget → Except IoError Unit :=
  fun _ => Except.error ⟨ErrorKind.other, "refused"⟩

/-- C9 counterexample: presented with an abstract (path-less) Unix address,
display, bind and connect do not return an "unsupported" error value — they
panic (`unimplemented!` in `Display`, `.expect(..)` in bind/connect), i.e.
the operation aborts instead of returning an error to its caller. -/
theorem abstract_socket_panic_counterexample :
    displaySocketAddr (SocketAddr.unixStd ⟨none⟩)
      = DisplayOutcome.panic "abstract socket not supported" ∧
    socketListenerBind (Except.ok [SocketAddr.unixStd ⟨none⟩]) attemptRefuse
      = ConnOutcome.panic "abstract socket not supported" ∧
    socketStreamConnect (Except.ok [SocketAddr.unixTokio ⟨none⟩]) attemptRefuse
      = ConnOutcome.panic "abstract socket not supported" :=
  ⟨rfl, rfl, rfl⟩

/-- C9 (amended): every abstract (path-less) Unix socket address presented
to display, or reached as a candidate by bind or connect, makes the
operation panic with the message `abstract socket not supported` — a
process abort, not an error value returned to the caller. -/
theorem abstract_socket_panic_behavior
    (attempt : AttemptTarget → Except IoError Unit) (rest : List SocketAddr) :
    displaySocketAddr (SocketAddr.unixStd ⟨none⟩)
      = DisplayOutcome.panic "abstract socket not supported" ∧
    displaySocketAddr (SocketAddr.unixTokio ⟨none⟩)
      = DisplayOutcome.panic "abstract socket not supported" ∧
    socketListenerBind (Except.ok (SocketAddr.unixStd ⟨none⟩ :: rest)) attempt
      = ConnOutcome.panic "abstract socket not supported" ∧
    socketListenerBind (Except.ok (SocketAddr.unixTokio ⟨none⟩ :: rest)) attempt
      = ConnOutcome.panic "abstract socket not supported" ∧
    socketStreamConnect (Except.ok (SocketAddr.unixStd ⟨none⟩ :: rest)) attempt
      = ConnOutcome.panic "abstract socket not supported" ∧
    socketStreamConnect (Except.ok (SocketAddr.unixTokio ⟨none⟩ :: rest)) attempt
      = ConnOutcome.panic "abstract socket not supported" :=
  ⟨rfl, rfl, rfl, rfl, rfl, rfl⟩

/-- The one-chunk source of the C3 race scenario. -/
def raceEvents : List ReadEvent := [ReadEvent.data [42], ReadEvent.data []]

/-- C3 (code bug): the buffer-reclaim assertion can fire.  In the
interleaved relay there is a schedule — reader reads and sends, writer
receives, writes and sends the success ack, then the reader runs before
the writer's end-of-iteration drop of its `Arc` clone — in which the
reader consumes the success ack and reaches `Arc::try_unwrap` while the
strong count is still 2, so `.expect("must be un-shared")` panics, even
though the buffer was fully written and positively acknowledged. -/
theorem input_reclaim_assertion_can_fire :
    (relayRun (relayInit raceEvents)
        [Tid.reader, Tid.reader, Tid.writer, Tid.writer, Tid.writer,
          Tid.reader]).rpc = RPC.reclaiming [42] ∧
    (relayRun (relayInit raceEvents)
        [Tid.reader, Tid.reader, Tid.writer, Tid.writer, Tid.writer,
          Tid.reader]).arcCount = 2 ∧
    (relayRun (relayInit raceEvents)
        [Tid.reader, Tid.reader, Tid.writer, Tid.writer, Tid.writer,
          Tid.reader]).written = [42] ∧
    (relayRun (relayInit raceEvents)
        [Tid.reader, Tid.reader, Tid.writer, Tid.writer, Tid.writer,
          Tid.reader, Tid.reader]).rpc = RPC.panicked "must be un-shared" :=
  ⟨by decide, by decide, by decide, by decide⟩

end GitRemoteUtils
